import Mathlib

/-!
Verification of the daily-planner reminder service (`src/main.py`).

The development shallowly embeds the program's pure decision logic:

* `parseRow` / `parseRows` — the row-parsing loop of `get_todays_schedule`
  (lines 86–103 of `main.py`), which splits sheet rows into timed tasks and
  flexible tasks;
* `get_todays_schedule` — the fetch wrapper, whose exception handlers
  (`WorksheetNotFound` and the catch-all) both return the empty pair;
* `format12Hour` — `current_time.strftime("%I:%M %p").upper()`, the canonical
  zero-padded 12-hour rendering of the wall-clock minute;
* `dueCond` / `processTasks` — the per-tick matching loop over the cached
  schedule, including the de-duplication set `notified_tasks`;
* `tick` / `run` — one iteration of `notification_loop`'s `while True` body
  (hour-rollover refresh, flexible digest, timed matching) and a finite run
  of successive iterations;
* `check_env_variables` / `notification_loop_start` — the startup gate.

External effects are made explicit: a fetch attempt is a `FetchResult`
(success with raw rows, worksheet-not-found, or any other error), and the
Telegram transport outcome of each send is an oracle `sendOk : Task → Bool`
(`send_telegram_notification` catches every exception, so the outcome is
recorded but never alters control flow).
-/

namespace Planner

/-- A timed task as parsed from a sheet row: `{"time": ..., "activity": ...}`. -/
structure Task where
  time : String
  activity : String
deriving DecidableEq, Repr

/-- Python's `pat in s` substring test, on character lists: does the list
start with `pat`? -/
def strStarts : List Char → List Char → Bool
  | [], _ => true
  | _ :: _, [] => false
  | a :: as, b :: bs => a == b && strStarts as bs

/-- Does `pat` occur as a contiguous sublist? (helper for `strContains`). -/
def subOccurs (pat : List Char) : List Char → Bool
  | [] => strStarts pat []
  | c :: rest => strStarts pat (c :: rest) || subOccurs pat rest

/-- Python's `pat in s` on strings (substring containment, case-sensitive). -/
def strContains (s pat : String) : Bool :=
  subOccurs pat.data s.data

/-- Python's `str.upper()` for the ASCII strings handled by the program. -/
def pyUpper (s : String) : String :=
  String.mk (s.data.map Char.toUpper)

/-- Parser state of the row loop in `get_todays_schedule`: the accumulated
timed schedule, the accumulated flexible tasks, and the `parsing_flexible`
mode flag. -/
structure ParseState where
  timed : List Task
  flexible : List String
  parsing_flexible : Bool
deriving DecidableEq, Repr

/-- One iteration of the `for row in all_data` loop (`main.py` lines 90–103):

* a row with more than one cell whose first cell contains `"Flexible Tasks"`
  switches to flexible mode and is discarded;
* in flexible mode, a row with a non-empty first cell contributes that cell;
* otherwise (timed mode) a row contributes a task when it has more than one
  cell, its first cell is non-empty and contains neither `"Time"` nor
  `"Schedule"`, and its second cell is non-empty and not `"---"`. -/
def parseRow (st : ParseState) (row : List String) : ParseState :=
  if 1 < row.length ∧ strContains (row.headD "") "Flexible Tasks" then
    { st with parsing_flexible := true }
  else if st.parsing_flexible then
    if row ≠ [] ∧ row.headD "" ≠ "" then
      { st with flexible := st.flexible ++ [row.headD ""] }
    else st
  else
    if 1 < row.length ∧ row.headD "" ≠ "" ∧
        strContains (row.headD "") "Time" = false ∧
        strContains (row.headD "") "Schedule" = false then
      if row.getD 1 "" ≠ "" ∧ row.getD 1 "" ≠ "---" then
        { st with timed := st.timed ++ [⟨row.headD "", row.getD 1 ""⟩] }
      else st
    else st

/-- The whole parsing loop over the fetched rows, returning
`(timed_schedule, flexible_tasks)`. -/
def parseRows (rows : List (List String)) : List Task × List String :=
  let st := rows.foldl parseRow ⟨[], [], false⟩
  (st.timed, st.flexible)

/-- Outcome of one attempt to read today's worksheet. -/
inductive FetchResult where
  | ok (rows : List (List String))
  | worksheetNotFound
  | otherError
deriving DecidableEq, Repr

/-- `get_todays_schedule` (`main.py` lines 75–114): on success the rows are
parsed; the `WorksheetNotFound` handler and the catch-all handler both
return `([], [])`. -/
def get_todays_schedule : FetchResult → List Task × List String
  | .ok rows => parseRows rows
  | .worksheetNotFound => ([], [])
  | .otherError => ([], [])

/-- The decimal digit character for `n % 10`. -/
def digitChar (n : Nat) : Char :=
  Char.ofNat (48 + n % 10)

/-- Two-digit zero-padded decimal rendering (`%02d`) of `n < 100`. -/
def pad2 (n : Nat) : String :=
  String.mk [digitChar (n / 10), digitChar n]

/-- `current_time.strftime("%I:%M %p").upper()`: the zero-padded 12-hour
clock string, e.g. `format12Hour 9 0 = "09:00 AM"` and
`format12Hour 13 5 = "01:05 PM"`. -/
def format12Hour (hour minute : Nat) : String :=
  (if hour % 12 = 0 then pad2 12 else pad2 (hour % 12)) ++ ":" ++ pad2 minute
    ++ " " ++ (if hour < 12 then "AM" else "PM")

/-- The de-duplication key `f"{task['time']}-{task['activity']}"`. -/
def taskKey (t : Task) : String :=
  t.time ++ "-" ++ t.activity

/-- The dispatch condition of the matching loop (`main.py` line 164):
`task['time'].upper() == current_time_str_12hr and task_key not in
notified_tasks`. -/
def dueCond (t : Task) (nowStr : String) (notified : List String) : Bool :=
  pyUpper t.time == nowStr && !notified.contains (taskKey t)

/-- The reminder text sent for a due task. -/
def reminderMessage (t : Task) : String :=
  "🔔 Reminder: It's time for '" ++ t.activity ++ "'"

/-- The `for task in schedule` loop (`main.py` lines 162–167): each due task
is sent (the transport outcome `sendOk task` is observed but swallowed by
`send_telegram_notification`) and its key is added to `notified_tasks`.
Returns the final `notified_tasks` and the ordered list of dispatch events
`(task, transport outcome)`. -/
def processTasks (sendOk : Task → Bool) (nowStr : String) :
    List Task → List String → List String × List (Task × Bool)
  | [], notified => (notified, [])
  | t :: rest, notified =>
    if dueCond t nowStr notified then
      let r := processTasks sendOk nowStr rest (notified ++ [taskKey t])
      (r.1, (t, sendOk t) :: r.2)
    else
      processTasks sendOk nowStr rest notified

/-- The hourly flexible digest: `"\n".join([" hourly flexible task
reminder:"] + ["  - " + task ...])`. -/
def flexSummary (flex : List String) : String :=
  String.intercalate "\n" (" hourly flexible task reminder:" :: flex.map (fun task => "  - " ++ task))

/-- Mutable state of `notification_loop`: the cached timed schedule,
`last_hour_checked`, and the `notified_tasks` set (modelled as a
duplicate-free list of keys, inserted only when absent). -/
structure LoopState where
  schedule : List Task
  last_hour_checked : Nat
  notified_tasks : List String
deriving DecidableEq, Repr

/-- The wall-clock reading `datetime.now(tz)` restricted to the fields the
loop uses. -/
structure Now where
  hour : Nat
  minute : Nat
deriving DecidableEq, Repr

/-- Observable outcome of one loop iteration: the new state, the flexible
digest message (if one was sent), and the timed dispatch events. -/
structure TickResult where
  state : LoopState
  digest : Option String
  dispatches : List (Task × Bool)
deriving DecidableEq, Repr

/-- One iteration of the `while True` body (`main.py` lines 137–169).
If the hour differs from `last_hour_checked`, the schedule is re-fetched
(whatever `fetch` yields, including the empty pair on failure),
`last_hour_checked` is updated, `notified_tasks` is cleared, and a digest is
sent when the freshly fetched flexible list is non-empty.  Then the timed
matching loop runs against the (possibly refreshed) schedule. -/
def tick (st : LoopState) (now : Now) (fetch : FetchResult) (sendOk : Task → Bool) : TickResult :=
  if now.hour ≠ st.last_hour_checked then
    let fetched := get_todays_schedule fetch
    let digest := if fetched.2 ≠ [] then some (flexSummary fetched.2) else none
    let r := processTasks sendOk (format12Hour now.hour now.minute) fetched.1 []
    { state := { schedule := fetched.1, last_hour_checked := now.hour, notified_tasks := r.1 },
      digest := digest,
      dispatches := r.2 }
  else
    let r := processTasks sendOk (format12Hour now.hour now.minute) st.schedule st.notified_tasks
    { state := { st with notified_tasks := r.1 },
      digest := none,
      dispatches := r.2 }

/-- A finite run of successive loop iterations, threading the state and
concatenating all timed dispatch events in order. -/
def run (sendOk : Task → Bool) (st : LoopState) :
    List (Now × FetchResult) → LoopState × List (Task × Bool)
  | [] => (st, [])
  | (now, f) :: rest =>
    let r := tick st now f sendOk
    let rr := run sendOk r.state rest
    (rr.1, r.dispatches ++ rr.2)

/-- The number of dispatch events attributable to task `t`. -/
def countTask (t : Task) (d : List (Task × Bool)) : Nat :=
  (d.map Prod.fst).count t

/-- The environment-sourced configuration checked at startup; `none` models
an unset variable. -/
structure Config where
  telegram_bot_token : Option String
  telegram_chat_id : Option String
  google_sheet_key : Option String
deriving DecidableEq, Repr

/-- Python truthiness of `os.environ.get(...)`: `None` and `""` are falsy. -/
def truthy : Option String → Bool
  | none => false
  | some s => !(s == "")

/-- `check_env_variables` (`main.py` lines 40–45):
`all([TELEGRAM_BOT_TOKEN, TELEGRAM_CHAT_ID, GOOGLE_SHEET_KEY])`. -/
def check_env_variables (c : Config) : Bool :=
  truthy c.telegram_bot_token && truthy c.telegram_chat_id && truthy c.google_sheet_key

/-- Whether startup reaches the running loop or stops before it. -/
inductive StartResult where
  | stopped
  | running (st : LoopState)
deriving DecidableEq, Repr

/-- Startup of `notification_loop` (`main.py` lines 125–135): if
`check_env_variables` fails the coroutine returns at once (no client, no
fetch, no loop); otherwise the initial schedule is fetched (flexible tasks
ignored), `last_hour_checked` is initialised from the clock, and
`notified_tasks` starts empty. -/
def notification_loop_start (c : Config) (initialFetch : FetchResult) (startHour : Nat) :
    StartResult :=
  if check_env_variables c then
    .running { schedule := (get_todays_schedule initialFetch).1,
               last_hour_checked := startHour,
               notified_tasks := [] }
  else .stopped

theorem data_append (a b : String) : (a ++ b).data = a.data ++ b.data := rfl

theorem length_data (s : String) : s.length = s.data.length := rfl

theorem pyUpper_length (s : String) : (pyUpper s).length = s.length := by
  show (s.data.map Char.toUpper).length = s.data.length
  simp

/-- Two tasks whose time strings have equal length and whose concatenated
de-duplication keys coincide are equal. -/
theorem taskKey_inj {t t' : Task} (hlen : t.time.length = t'.time.length)
    (hk : taskKey t = taskKey t') : t = t' := by
  have hd := congrArg String.data hk
  simp only [taskKey, data_append, List.append_assoc] at hd
  obtain ⟨h1, h2⟩ := List.append_inj hd hlen
  obtain ⟨-, h3⟩ := List.append_inj h2 rfl
  obtain ⟨t1, t2⟩ := t
  obtain ⟨s1, s2⟩ := t'
  simp only [Task.mk.injEq]
  exact ⟨String.ext h1, String.ext h3⟩

/-- The dispatch condition, in propositional form. -/
theorem dueCond_iff (t : Task) (nowStr : String) (notified : List String) :
    dueCond t nowStr notified = true ↔ pyUpper t.time = nowStr ∧ taskKey t ∉ notified := by
  simp [dueCond, List.contains, List.elem_iff]

/-- The final `notified_tasks` of one matching pass is the initial set
extended, in order, with the key of every dispatched task. -/
theorem processTasks_notified_eq (sendOk : Task → Bool) (nowStr : String)
    (tasks : List Task) :
    ∀ notified, (processTasks sendOk nowStr tasks notified).1 =
      notified ++ ((processTasks sendOk nowStr tasks notified).2.map fun p => taskKey p.1) := by
  induction tasks with
  | nil => intro notified; simp [processTasks]
  | cons t rest ih =>
    intro notified
    by_cases hc : dueCond t nowStr notified = true
    · simp only [processTasks, if_pos hc, List.map_cons]
      rw [ih (notified ++ [taskKey t])]
      simp
    · simp only [processTasks, if_neg hc]
      exact ih notified

/-- Every dispatch event of one matching pass concerns a schedule task whose
uppercased time equals the current time string, and records the transport
outcome the oracle assigns to it. -/
theorem processTasks_mem (sendOk : Task → Bool) (nowStr : String)
    (tasks : List Task) :
    ∀ notified p, p ∈ (processTasks sendOk nowStr tasks notified).2 →
      p.1 ∈ tasks ∧ pyUpper p.1.time = nowStr ∧ p.2 = sendOk p.1 := by
  induction tasks with
  | nil => intro notified p hp; simp [processTasks] at hp
  | cons t rest ih =>
    intro notified p hp
    by_cases hc : dueCond t nowStr notified = true
    · simp only [processTasks, if_pos hc, List.mem_cons] at hp
      rcases hp with rfl | hp
      · refine ⟨List.mem_cons_self .., ?_, rfl⟩
        exact ((dueCond_iff t nowStr notified).mp hc).1
      · obtain ⟨h1, h2, h3⟩ := ih (notified ++ [taskKey t]) p hp
        exact ⟨List.mem_cons_of_mem _ h1, h2, h3⟩
    · simp only [processTasks, if_neg hc] at hp
      obtain ⟨h1, h2, h3⟩ := ih notified p hp
      exact ⟨List.mem_cons_of_mem _ h1, h2, h3⟩

/-- A task whose key is already recorded is never dispatched again. -/
theorem processTasks_blocked (sendOk : Task → Bool) (nowStr : String)
    (tasks : List Task) (t : Task) :
    ∀ notified, taskKey t ∈ notified →
      countTask t (processTasks sendOk nowStr tasks notified).2 = 0 := by
  induction tasks with
  | nil => intro notified _; simp [processTasks, countTask]
  | cons t' rest ih =>
    intro notified hmem
    by_cases hc : dueCond t' nowStr notified = true
    · have hne : t' ≠ t := by
        intro he
        exact ((dueCond_iff t' nowStr notified).mp hc).2 (he ▸ hmem)
      simp only [processTasks, if_pos hc]
      have hrec := ih (notified ++ [taskKey t']) (List.mem_append_left _ hmem)
      simp only [countTask, List.map_cons, List.count_cons] at hrec ⊢
      simp [hrec, hne]
    · simp only [processTasks, if_neg hc]
      exact ih notified hmem

/-- A task not matching the current time string is never dispatched. -/
theorem processTasks_notdue (sendOk : Task → Bool) (nowStr : String)
    (tasks : List Task) (t : Task) (notified : List String)
    (hne : pyUpper t.time ≠ nowStr) :
    countTask t (processTasks sendOk nowStr tasks notified).2 = 0 := by
  rw [countTask, List.count_eq_zero]
  intro hmem
  obtain ⟨p, hp, rfl⟩ := List.mem_map.mp hmem
  exact hne (processTasks_mem sendOk nowStr tasks notified p hp).2.1

/-- A due, not-yet-notified schedule task is dispatched exactly once in a
single matching pass. -/
theorem processTasks_fire (sendOk : Task → Bool) (nowStr : String)
    (tasks : List Task) (t : Task) :
    ∀ notified, t ∈ tasks → pyUpper t.time = nowStr → taskKey t ∉ notified →
      countTask t (processTasks sendOk nowStr tasks notified).2 = 1 := by
  induction tasks with
  | nil => intro _ h; simp at h
  | cons t' rest ih =>
    intro notified htin hdue hnot
    by_cases hc : dueCond t' nowStr notified = true
    · by_cases het : t' = t
      · subst het
        simp only [processTasks, if_pos hc, countTask, List.map_cons, List.count_cons_self]
        have h0 := processTasks_blocked sendOk nowStr rest t' (notified ++ [taskKey t'])
          (List.mem_append_right _ (List.mem_singleton.mpr rfl))
        simp only [countTask] at h0
        simp [h0]
      · have htin' : t ∈ rest := by
          rcases List.mem_cons.mp htin with rfl | h
          · exact absurd rfl het
          · exact h
        have hdue' := ((dueCond_iff t' nowStr notified).mp hc).1
        have hkne : taskKey t ≠ taskKey t' := by
          intro hk
          have hlen : t.time.length = t'.time.length := by
            rw [← pyUpper_length, ← pyUpper_length t'.time, hdue, hdue']
          exact het (taskKey_inj hlen hk).symm
        have hnot' : taskKey t ∉ notified ++ [taskKey t'] := by
          intro hm
          rcases List.mem_append.mp hm with h | h
          · exact hnot h
          · exact hkne (List.mem_singleton.mp h)
        have hrec := ih (notified ++ [taskKey t']) htin' hdue hnot'
        simp only [processTasks, if_pos hc, countTask, List.map_cons, List.count_cons] at hrec ⊢
        simp [hrec, het]
    · have het : t' ≠ t := by
        intro he
        subst he
        exact hc ((dueCond_iff t' nowStr notified).mpr ⟨hdue, hnot⟩)
      have htin' : t ∈ rest := by
        rcases List.mem_cons.mp htin with rfl | h
        · exact absurd rfl het
        · exact h
      simp only [processTasks, if_neg hc]
      exact ih notified htin' hdue hnot

/-- Dispatch counts add over concatenated dispatch logs. -/
theorem countTask_append (t : Task) (a b : List (Task × Bool)) :
    countTask t (a ++ b) = countTask t a + countTask t b := by
  simp [countTask, List.count_append]

theorem pad2_length (n : Nat) : (pad2 n).length = 2 := rfl

/-- The canonical 12-hour rendering always has exactly 8 characters
(`HH:MM AM` / `HH:MM PM`). -/
theorem format12Hour_length (h m : Nat) : (format12Hour h m).length = 8 := by
  have h1 : (":" : String).length = 1 := rfl
  have h2 : (" " : String).length = 1 := rfl
  have h3 : ("AM" : String).length = 2 := rfl
  have h4 : ("PM" : String).length = 2 := rfl
  unfold format12Hour
  split <;> split <;> simp [String.length_append, pad2_length, h1, h2, h3, h4]

/-- A tick whose hour equals `last_hour_checked` performs no refresh: it only
runs the matching pass against the cached schedule. -/
theorem tick_steady (st : LoopState) (now : Now) (fetch : FetchResult) (sendOk : Task → Bool)
    (h : now.hour = st.last_hour_checked) :
    tick st now fetch sendOk =
      { state := { st with notified_tasks :=
            (processTasks sendOk (format12Hour now.hour now.minute) st.schedule st.notified_tasks).1 },
        digest := none,
        dispatches := (processTasks sendOk (format12Hour now.hour now.minute) st.schedule st.notified_tasks).2 } := by
  simp [tick, h]

/-- Once a task's key is recorded, a refresh-free run never dispatches it
again. -/
theorem run_blocked (sendOk : Task → Bool) (t : Task) :
    ∀ (inputs : List (Now × FetchResult)) (st : LoopState),
      (∀ p ∈ inputs, (p.1).hour = st.last_hour_checked) →
      taskKey t ∈ st.notified_tasks →
      countTask t (run sendOk st inputs).2 = 0 := by
  intro inputs
  induction inputs with
  | nil => intro st _ _; simp [run, countTask]
  | cons p rest ih =>
    obtain ⟨now, f⟩ := p
    intro st hh hmem
    have hhead : now.hour = st.last_hour_checked := hh _ (List.mem_cons_self ..)
    rw [run, tick_steady st now f sendOk hhead]
    rw [countTask_append]
    have h1 := processTasks_blocked sendOk (format12Hour now.hour now.minute)
      st.schedule t st.notified_tasks hmem
    have hkey : taskKey t ∈
        (processTasks sendOk (format12Hour now.hour now.minute) st.schedule st.notified_tasks).1 := by
      rw [processTasks_notified_eq]
      exact List.mem_append_left _ hmem
    have h2 := ih { st with notified_tasks :=
        (processTasks sendOk (format12Hour now.hour now.minute) st.schedule st.notified_tasks).1 }
      (fun p hp => hh p (List.mem_cons_of_mem _ hp)) hkey
    rw [h1, h2]

/-- Over any refresh-free run, a cached task that starts unnotified is
dispatched exactly once if some tick's clock matches its time string, and
never otherwise. -/
theorem run_count (sendOk : Task → Bool) (t : Task) :
    ∀ (inputs : List (Now × FetchResult)) (st : LoopState),
      (∀ p ∈ inputs, (p.1).hour = st.last_hour_checked) →
      t ∈ st.schedule →
      taskKey t ∉ st.notified_tasks →
      countTask t (run sendOk st inputs).2 =
        (if inputs.any (fun p => pyUpper t.time == format12Hour (p.1).hour (p.1).minute)
          then 1 else 0) := by
  intro inputs
  induction inputs with
  | nil => intro st _ _ _; simp [run, countTask]
  | cons p rest ih =>
    obtain ⟨now, fr⟩ := p
    intro st hh hsched hnot
    have hhead : now.hour = st.last_hour_checked := hh _ (List.mem_cons_self ..)
    rw [run, tick_steady st now fr sendOk hhead, countTask_append]
    by_cases hm : pyUpper t.time = format12Hour now.hour now.minute
    · have h1 := processTasks_fire sendOk (format12Hour now.hour now.minute)
        st.schedule t st.notified_tasks hsched hm hnot
      have htmem : t ∈ ((processTasks sendOk (format12Hour now.hour now.minute)
          st.schedule st.notified_tasks).2.map Prod.fst) := by
        apply List.count_pos_iff.mp
        unfold countTask at h1
        omega
      have hkey : taskKey t ∈ (processTasks sendOk (format12Hour now.hour now.minute)
          st.schedule st.notified_tasks).1 := by
        rw [processTasks_notified_eq]
        apply List.mem_append_right
        obtain ⟨q, hq, hqe⟩ := List.mem_map.mp htmem
        exact List.mem_map.mpr ⟨q, hq, by rw [hqe]⟩
      have h2 := run_blocked sendOk t rest
        { st with notified_tasks := (processTasks sendOk (format12Hour now.hour now.minute)
            st.schedule st.notified_tasks).1 }
        (fun q hq => hh q (List.mem_cons_of_mem _ hq)) hkey
      rw [h1, h2]
      have hany : ((now, fr) :: rest).any
          (fun p => pyUpper t.time == format12Hour (p.1).hour (p.1).minute) = true :=
        List.any_eq_true.mpr ⟨(now, fr), List.mem_cons_self .., by simp [hm]⟩
      rw [if_pos hany]
    · have h1 := processTasks_notdue sendOk (format12Hour now.hour now.minute)
        st.schedule t st.notified_tasks hm
      rw [h1]
      have hheadfalse : (pyUpper t.time == format12Hour now.hour now.minute) = false := by
        simp [hm]
      by_cases hkey : taskKey t ∈ (processTasks sendOk (format12Hour now.hour now.minute)
          st.schedule st.notified_tasks).1
      · have hcol : ∃ q ∈ (processTasks sendOk (format12Hour now.hour now.minute)
            st.schedule st.notified_tasks).2, taskKey q.1 = taskKey t := by
          rw [processTasks_notified_eq] at hkey
          rcases List.mem_append.mp hkey with h | h
          · exact absurd h hnot
          · obtain ⟨q, hq, hqe⟩ := List.mem_map.mp h
            exact ⟨q, hq, hqe⟩
        obtain ⟨q, hq, hqe⟩ := hcol
        have hdueQ := (processTasks_mem sendOk (format12Hour now.hour now.minute)
          st.schedule st.notified_tasks q hq).2.1
        have hrest : rest.any
            (fun p => pyUpper t.time == format12Hour (p.1).hour (p.1).minute) = false := by
          by_contra hqq
          rw [Bool.not_eq_false] at hqq
          obtain ⟨r, hrmem, hrbeq⟩ := List.any_eq_true.mp hqq
          have hreq : pyUpper t.time = format12Hour (r.1).hour (r.1).minute := by
            simpa using hrbeq
          have hlen : q.1.time.length = t.time.length := by
            rw [← pyUpper_length, ← pyUpper_length t.time, hreq, hdueQ,
              format12Hour_length, format12Hour_length]
          have hqt : q.1 = t := taskKey_inj hlen hqe
          rw [hqt] at hdueQ
          exact hm hdueQ
        have h2 := run_blocked sendOk t rest
          { st with notified_tasks := (processTasks sendOk (format12Hour now.hour now.minute)
              st.schedule st.notified_tasks).1 }
          (fun r hr => hh r (List.mem_cons_of_mem _ hr)) hkey
        rw [h2]
        simp [List.any_cons, hheadfalse, hrest]
      · have h2 := ih
          { st with notified_tasks := (processTasks sendOk (format12Hour now.hour now.minute)
              st.schedule st.notified_tasks).1 }
          (fun r hr => hh r (List.mem_cons_of_mem _ hr)) hsched hkey
        rw [h2]
        simp only [List.any_cons, hheadfalse, Bool.false_or, Nat.zero_add]

/-- A tick whose hour differs from `last_hour_checked` refreshes: it adopts
whatever the fetch yields, clears the notified set before matching, and
prepares the digest from the freshly fetched flexible list. -/
theorem tick_rollover (st : LoopState) (now : Now) (fetch : FetchResult) (sendOk : Task → Bool)
    (h : now.hour ≠ st.last_hour_checked) :
    tick st now fetch sendOk =
      { state :=
          { schedule := (get_todays_schedule fetch).1
            last_hour_checked := now.hour
            notified_tasks := (processTasks sendOk (format12Hour now.hour now.minute)
              (get_todays_schedule fetch).1 []).1 }
        digest := if (get_todays_schedule fetch).2 ≠ [] then
          some (flexSummary (get_todays_schedule fetch).2) else none
        dispatches := (processTasks sendOk (format12Hour now.hour now.minute)
          (get_todays_schedule fetch).1 []).2 } := by
  simp [tick, h]

/-- The matching pass ignores the transport-outcome oracle: the resulting
notified set and the sequence of attempted tasks are the same under any
two oracles. -/
theorem processTasks_oracle_eq (sendOk sendOk' : Task → Bool) (nowStr : String)
    (tasks : List Task) :
    ∀ notified,
      (processTasks sendOk nowStr tasks notified).1 =
        (processTasks sendOk' nowStr tasks notified).1 ∧
      (processTasks sendOk nowStr tasks notified).2.map Prod.fst =
        (processTasks sendOk' nowStr tasks notified).2.map Prod.fst := by
  induction tasks with
  | nil => intro notified; simp [processTasks]
  | cons t rest ih =>
    intro notified
    by_cases hc : dueCond t nowStr notified = true
    · simp only [processTasks, if_pos hc, List.map_cons]
      exact ⟨(ih _).1, by rw [(ih _).2]⟩
    · simp only [processTasks, if_neg hc]
      exact ih notified

/-- **C1 — counterexample.**  The claim asserts that a failing fetch at an
hour-rollover refresh leaves the previously cached schedule and the
notified set unchanged.  On the code this is false: `get_todays_schedule`
returns `([], [])` from both exception handlers, the loop assigns that
result over the cached schedule, and `notified_tasks.clear()` runs
unconditionally after every refresh attempt.  At a rollover tick with a
cached task and a notified key, a failing fetch empties both. -/
theorem c1_counterexample :
    (tick ⟨[⟨"09:00 AM", "Standup"⟩], 9, ["09:00 AM-Standup"]⟩ ⟨10, 0⟩
        .otherError (fun _ => true)).state.schedule ≠ [⟨"09:00 AM", "Standup"⟩] ∧
    (tick ⟨[⟨"09:00 AM", "Standup"⟩], 9, ["09:00 AM-Standup"]⟩ ⟨10, 0⟩
        .otherError (fun _ => true)).state.notified_tasks ≠ ["09:00 AM-Standup"] ∧
    (tick ⟨[⟨"09:00 AM", "Standup"⟩], 9, ["09:00 AM-Standup"]⟩ ⟨10, 0⟩
        .worksheetNotFound (fun _ => true)).state.schedule ≠ [⟨"09:00 AM", "Standup"⟩] := by
  decide

/-- **C1 — amended.**  If the schedule fetch fails during an hour-rollover
refresh, the cached schedule is replaced by the empty schedule and the
notified set is cleared — the old timed-task list and the old notified keys
are discarded, no digest is sent and nothing is dispatched until a later
successful fetch.  Worksheet-not-found and any other fetch error are
handled identically. -/
theorem c1_fetch_failure_resets (st : LoopState) (now : Now) (fetch : FetchResult)
    (sendOk : Task → Bool) (hroll : now.hour ≠ st.last_hour_checked)
    (hfail : fetch = .worksheetNotFound ∨ fetch = .otherError) :
    (tick st now fetch sendOk).state.schedule = [] ∧
    (tick st now fetch sendOk).state.notified_tasks = [] ∧
    (tick st now fetch sendOk).digest = none ∧
    (tick st now fetch sendOk).dispatches = [] := by
  rcases hfail with rfl | rfl <;>
    simp [tick, hroll, get_todays_schedule, processTasks]

theorem c1_fetch_failure_resets_witness :
    ((10 : Nat) ≠ 9 ∧
      (FetchResult.otherError = .worksheetNotFound ∨ FetchResult.otherError = .otherError)) ∧
    ((tick ⟨[⟨"09:00 AM", "Standup"⟩], 9, ["09:00 AM-Standup"]⟩ ⟨10, 0⟩
        .otherError (fun _ => true)).state.schedule = [] ∧
      (tick ⟨[⟨"09:00 AM", "Standup"⟩], 9, ["09:00 AM-Standup"]⟩ ⟨10, 0⟩
        .otherError (fun _ => true)).state.notified_tasks = [] ∧
      (tick ⟨[⟨"09:00 AM", "Standup"⟩], 9, ["09:00 AM-Standup"]⟩ ⟨10, 0⟩
        .otherError (fun _ => true)).digest = none ∧
      (tick ⟨[⟨"09:00 AM", "Standup"⟩], 9, ["09:00 AM-Standup"]⟩ ⟨10, 0⟩
        .otherError (fun _ => true)).dispatches = []) :=
  ⟨⟨by decide, Or.inr rfl⟩,
    c1_fetch_failure_resets ⟨[⟨"09:00 AM", "Standup"⟩], 9, ["09:00 AM-Standup"]⟩ ⟨10, 0⟩
      .otherError (fun _ => true) (by decide) (Or.inr rfl)⟩

/-- **C2 — counterexample.**  On the claim's literal row sequence the marker
row `["Flexible Tasks"]` has a single cell, so the `len(row) > 1` guard of
the marker test fails, the parser never switches to flexible mode, and the
one-cell rows `["Read"]` and `["Exercise"]` are then dropped by the timed
branch's own `len(row) > 1` guard: the flexible-task output is empty, not
`["Read", "Exercise"]`. -/
theorem c2_counterexample :
    (parseRows [["09:00", "Standup"], ["Flexible Tasks"], ["Read"], ["Exercise"]]).2
        ≠ ["Read", "Exercise"] ∧
    parseRows [["09:00", "Standup"], ["Flexible Tasks"], ["Read"], ["Exercise"]]
        = ([⟨"09:00", "Standup"⟩], []) := by
  decide

/-- **C2 — amended.**  The mode switch requires the marker row to have at
least two cells.  With the marker row carrying a second (empty) cell — the
shape `get_all_values` produces, since it pads rows to a rectangle — the
row sequence parses to exactly one timed task `{time := "09:00", activity
:= "Standup"}`, the marker row is discarded, and every subsequent row with
a non-empty first cell becomes a flexible task, yielding
`["Read", "Exercise"]`. -/
theorem c2_section_boundary :
    parseRows [["09:00", "Standup"], ["Flexible Tasks", ""], ["Read"], ["Exercise"]]
      = ([⟨"09:00", "Standup"⟩], ["Read", "Exercise"]) := by
  decide

/-- **C3 — counterexample.**  Matching does not normalize arbitrary source
formattings of the same minute: a task recorded as `"9:00 AM"` — a 12-hour
rendering of the very minute whose canonical form is `"09:00 AM"` — fails
the due test at 9:00 AM and is not dispatched, because the code only
uppercases the stored string and compares it to the zero-padded
`strftime("%I:%M %p")` output. -/
theorem c3_counterexample :
    dueCond ⟨"9:00 AM", "Standup"⟩ (format12Hour 9 0) [] = false ∧
    (processTasks (fun _ => true) (format12Hour 9 0) [⟨"9:00 AM", "Standup"⟩] []).2 = [] := by
  decide

/-- **C3 — amended.**  A task passes the due test exactly when its recorded
time string, uppercased, equals the canonical zero-padded 12-hour rendering
of the current minute and its key is not yet notified: only letter case is
normalized, so `"09:00 am"` (and `"09:00 AM"` itself) match a current time
of 09:00 AM, but other formattings of the same minute do not. -/
theorem c3_match_case_insensitive :
    (∀ (t : Task) (nowStr : String) (notified : List String),
      dueCond t nowStr notified = true ↔ pyUpper t.time = nowStr ∧ taskKey t ∉ notified) ∧
    dueCond ⟨"09:00 am", "Standup"⟩ (format12Hour 9 0) [] = true ∧
    dueCond ⟨"09:00 AM", "Standup"⟩ (format12Hour 9 0) [] = true :=
  ⟨dueCond_iff, by decide, by decide⟩

/-- **C4.**  Exactly-once delivery between refreshes: starting from the
cleared notified set, over any refresh-free run (every tick's hour equals
`last_hour_checked`, so no rollover intervenes) a task of the cached
schedule is dispatched exactly once provided some tick observes its
matching time — however many ticks observe it, and whatever each send's
transport outcome is. -/
theorem c4_exactly_once (sendOk : Task → Bool) (st : LoopState)
    (inputs : List (Now × FetchResult)) (t : Task)
    (hclear : st.notified_tasks = [])
    (hsteady : ∀ p ∈ inputs, (p.1).hour = st.last_hour_checked)
    (htask : t ∈ st.schedule)
    (hmatch : ∃ p ∈ inputs, pyUpper t.time = format12Hour (p.1).hour (p.1).minute) :
    countTask t (run sendOk st inputs).2 = 1 := by
  have h := run_count sendOk t inputs st hsteady htask (by rw [hclear]; simp)
  rw [h, if_pos]
  apply List.any_eq_true.mpr
  obtain ⟨p, hp, he⟩ := hmatch
  exact ⟨p, hp, by simp [he]⟩

theorem c4_exactly_once_witness :
    ((⟨"09:00 am", "Standup"⟩ : Task) ∈ [(⟨"09:00 am", "Standup"⟩ : Task)]) ∧
    countTask ⟨"09:00 am", "Standup"⟩
      (run (fun _ => true) ⟨[⟨"09:00 am", "Standup"⟩], 9, []⟩
        [(⟨9, 0⟩, .otherError), (⟨9, 0⟩, .otherError), (⟨9, 30⟩, .otherError)]).2 = 1 :=
  ⟨by decide,
    c4_exactly_once (fun _ => true) ⟨[⟨"09:00 am", "Standup"⟩], 9, []⟩
      [(⟨9, 0⟩, .otherError), (⟨9, 0⟩, .otherError), (⟨9, 30⟩, .otherError)]
      ⟨"09:00 am", "Standup"⟩ rfl (by decide) (by decide)
      ⟨(⟨9, 0⟩, .otherError), by decide, by decide⟩⟩

/-- **C5.**  An hour-rollover refresh resets the de-duplication state: after
the rollover tick the notified set consists exactly of the keys dispatched
during that very tick (every pre-refresh key is gone), and any freshly
fetched task whose time matches the tick fires exactly once — in
particular one whose `(time, activity)` key had already been notified
before the refresh. -/
theorem c5_refresh_clears (st : LoopState) (now : Now) (fetch : FetchResult)
    (sendOk : Task → Bool) (t : Task)
    (hroll : now.hour ≠ st.last_hour_checked) :
    (tick st now fetch sendOk).state.notified_tasks =
      ((tick st now fetch sendOk).dispatches.map fun p => taskKey p.1) ∧
    (t ∈ (get_todays_schedule fetch).1 →
      pyUpper t.time = format12Hour now.hour now.minute →
      countTask t (tick st now fetch sendOk).dispatches = 1) := by
  rw [tick_rollover st now fetch sendOk hroll]
  constructor
  · have h := processTasks_notified_eq sendOk (format12Hour now.hour now.minute)
      (get_todays_schedule fetch).1 []
    simpa using h
  · intro ht hdue
    exact processTasks_fire sendOk (format12Hour now.hour now.minute)
      (get_todays_schedule fetch).1 t [] ht hdue (by simp)

theorem c5_refresh_clears_witness :
    ((9 : Nat) ≠ 8 ∧ taskKey ⟨"09:00 AM", "Standup"⟩ ∈ ["09:00 AM-Standup"]) ∧
    countTask ⟨"09:00 AM", "Standup"⟩
      (tick ⟨[⟨"09:00 AM", "Standup"⟩], 8, ["09:00 AM-Standup"]⟩ ⟨9, 0⟩
        (.ok [["09:00 AM", "Standup"]]) (fun _ => true)).dispatches = 1 :=
  ⟨⟨by decide, by decide⟩,
    (c5_refresh_clears ⟨[⟨"09:00 AM", "Standup"⟩], 8, ["09:00 AM-Standup"]⟩ ⟨9, 0⟩
        (.ok [["09:00 AM", "Standup"]]) (fun _ => true) ⟨"09:00 AM", "Standup"⟩
        (by decide)).2 (by decide) (by decide)⟩

/-- **C6.**  Send failures are swallowed: the notified set and the sequence
of attempted dispatches are identical under any two transport-outcome
oracles (no transport error alters control flow or aborts the pass), and a
due task whose send fails is still dispatched-as-attempted, its failure
recorded, and its key added to the notified set — so it is never retried
within the epoch. -/
theorem c6_send_failure_swallowed (sendOk sendOk' : Task → Bool) (nowStr : String)
    (tasks : List Task) (notified : List String) (t : Task) :
    ((processTasks sendOk nowStr tasks notified).1 =
        (processTasks sendOk' nowStr tasks notified).1 ∧
      (processTasks sendOk nowStr tasks notified).2.map Prod.fst =
        (processTasks sendOk' nowStr tasks notified).2.map Prod.fst) ∧
    (t ∈ tasks → sendOk t = false → dueCond t nowStr notified = true →
      taskKey t ∈ (processTasks sendOk nowStr tasks notified).1 ∧
      (t, false) ∈ (processTasks sendOk nowStr tasks notified).2) := by
  refine ⟨processTasks_oracle_eq sendOk sendOk' nowStr tasks notified, ?_⟩
  intro ht hf hdc
  obtain ⟨hdue, hnot⟩ := (dueCond_iff t nowStr notified).mp hdc
  have h1 := processTasks_fire sendOk nowStr tasks t notified ht hdue hnot
  have htmem : t ∈ ((processTasks sendOk nowStr tasks notified).2.map Prod.fst) := by
    apply List.count_pos_iff.mp
    unfold countTask at h1
    omega
  constructor
  · rw [processTasks_notified_eq]
    apply List.mem_append_right
    obtain ⟨q, hq, hqe⟩ := List.mem_map.mp htmem
    exact List.mem_map.mpr ⟨q, hq, by rw [hqe]⟩
  · obtain ⟨q, hq, hqe⟩ := List.mem_map.mp htmem
    have h3 := (processTasks_mem sendOk nowStr tasks notified q hq).2.2
    obtain ⟨q1, q2⟩ := q
    simp only at hqe h3
    subst hqe
    rw [h3, hf] at hq
    exact hq

theorem c6_send_failure_swallowed_witness :
    ((⟨"09:00 AM", "Standup"⟩ : Task) ∈ [(⟨"09:00 AM", "Standup"⟩ : Task)] ∧
      dueCond ⟨"09:00 AM", "Standup"⟩ "09:00 AM" [] = true) ∧
    (taskKey ⟨"09:00 AM", "Standup"⟩ ∈
        (processTasks (fun _ => false) "09:00 AM" [⟨"09:00 AM", "Standup"⟩] []).1 ∧
      ((⟨"09:00 AM", "Standup"⟩ : Task), false) ∈
        (processTasks (fun _ => false) "09:00 AM" [⟨"09:00 AM", "Standup"⟩] []).2) :=
  ⟨⟨by decide, by decide⟩,
    (c6_send_failure_swallowed (fun _ => false) (fun _ => true) "09:00 AM"
        [⟨"09:00 AM", "Standup"⟩] [] ⟨"09:00 AM", "Standup"⟩).2
      (by decide) rfl (by decide)⟩

/-- **C7.**  At an hour-rollover tick, exactly one flexible-task digest is
sent when the freshly fetched flexible list is non-empty — a single message
joining the header line and one `"  - "`-prefixed line per flexible task —
and none is sent when the freshly fetched flexible list is empty. -/
theorem c7_flex_digest (st : LoopState) (now : Now) (fetch : FetchResult)
    (sendOk : Task → Bool) (hroll : now.hour ≠ st.last_hour_checked) :
    ((get_todays_schedule fetch).2 ≠ [] →
      (tick st now fetch sendOk).digest = some (flexSummary (get_todays_schedule fetch).2)) ∧
    ((get_todays_schedule fetch).2 = [] → (tick st now fetch sendOk).digest = none) := by
  rw [tick_rollover st now fetch sendOk hroll]
  constructor <;> intro h <;> simp [h]

theorem c7_flex_digest_witness :
    ((10 : Nat) ≠ 9 ∧
      (get_todays_schedule (.ok [["Flexible Tasks", ""], ["Read"], ["Exercise"]])).2 ≠ []) ∧
    (tick ⟨[], 9, []⟩ ⟨10, 0⟩ (.ok [["Flexible Tasks", ""], ["Read"], ["Exercise"]])
        (fun _ => true)).digest
      = some " hourly flexible task reminder:\n  - Read\n  - Exercise" :=
  ⟨⟨by decide, by decide⟩, by
    have h := (c7_flex_digest ⟨[], 9, []⟩ ⟨10, 0⟩
      (.ok [["Flexible Tasks", ""], ["Read"], ["Exercise"]]) (fun _ => true) (by decide)).1
      (by decide)
    simpa using h⟩

/-- **C8.**  In timed mode a row contributes a task only if it has at least
two cells, a non-empty first (time) cell, and a second (activity) cell that
is non-empty and not the placeholder `"---"`; rows failing any of these
checks — such as `["09:30", "---"]` and the single-cell `["09:45"]` —
contribute no task, and parsing is a total function, so no error arises. -/
theorem c8_timed_row_filter :
    (∀ (st : ParseState) (row : List String), st.parsing_flexible = false →
      (parseRow st row).timed ≠ st.timed →
      2 ≤ row.length ∧ row.headD "" ≠ "" ∧ row.getD 1 "" ≠ "" ∧ row.getD 1 "" ≠ "---") ∧
    parseRows [["09:30", "---"]] = ([], []) ∧
    parseRows [["09:45"]] = ([], []) := by
  refine ⟨?_, by decide, by decide⟩
  intro st row hflag hne
  simp only [parseRow] at hne
  by_cases hA : 1 < row.length ∧ strContains (row.headD "") "Flexible Tasks" = true
  · rw [if_pos hA] at hne
    exact absurd rfl hne
  · rw [if_neg hA, if_neg (by simp [hflag])] at hne
    by_cases hB : 1 < row.length ∧ row.headD "" ≠ "" ∧
        strContains (row.headD "") "Time" = false ∧
        strContains (row.headD "") "Schedule" = false
    · rw [if_pos hB] at hne
      by_cases hC : row.getD 1 "" ≠ "" ∧ row.getD 1 "" ≠ "---"
      · exact ⟨hB.1, hB.2.1, hC.1, hC.2⟩
      · rw [if_neg hC] at hne
        exact absurd rfl hne
    · rw [if_neg hB] at hne
      exact absurd rfl hne

theorem c8_timed_row_filter_witness :
    ((⟨[], [], false⟩ : ParseState).parsing_flexible = false ∧
      (parseRow ⟨[], [], false⟩ ["09:00", "Standup"]).timed ≠
        (⟨[], [], false⟩ : ParseState).timed) ∧
    (2 ≤ (["09:00", "Standup"] : List String).length ∧
      (["09:00", "Standup"] : List String).headD "" ≠ "" ∧
      (["09:00", "Standup"] : List String).getD 1 "" ≠ "" ∧
      (["09:00", "Standup"] : List String).getD 1 "" ≠ "---") :=
  ⟨⟨rfl, by decide⟩,
    c8_timed_row_filter.1 ⟨[], [], false⟩ ["09:00", "Standup"] rfl (by decide)⟩

/-- **C9.**  If any required configuration value — the Telegram bot token,
the Telegram chat id, or the Google sheet key — is unset (or empty, which
Python's `all` treats the same), `notification_loop` returns before
creating any client: startup never reaches the running state, so the loop
body is never entered, no fetch is attempted and no notification can ever
be dispatched. -/
theorem c9_missing_config_stops (c : Config) (initialFetch : FetchResult) (startHour : Nat)
    (hmiss : truthy c.telegram_bot_token = false ∨ truthy c.telegram_chat_id = false ∨
      truthy c.google_sheet_key = false) :
    notification_loop_start c initialFetch startHour = .stopped := by
  have hc : check_env_variables c = false := by
    rcases hmiss with h | h | h <;> simp [check_env_variables, h]
  simp [notification_loop_start, hc]

theorem c9_missing_config_stops_witness :
    truthy (Config.mk none (some "chat") (some "sheet")).telegram_bot_token = false ∧
    notification_loop_start ⟨none, some "chat", some "sheet"⟩ (.ok [["09:00", "Standup"]]) 9
      = .stopped :=
  ⟨rfl, c9_missing_config_stops ⟨none, some "chat", some "sheet"⟩
    (.ok [["09:00", "Standup"]]) 9 (Or.inl rfl)⟩

/-- **C10.**  The header filter is applied to every timed-mode row, not only
to leading header rows: whenever the first cell contains the substring
`"Time"` or the substring `"Schedule"`, the row contributes no timed task,
regardless of its remaining cells — even with a non-empty, non-placeholder
activity cell. -/
theorem c10_header_filter (st : ParseState) (row : List String)
    (hflag : st.parsing_flexible = false)
    (hdr : strContains (row.headD "") "Time" = true ∨
      strContains (row.headD "") "Schedule" = true) :
    (parseRow st row).timed = st.timed := by
  simp only [parseRow]
  by_cases hA : 1 < row.length ∧ strContains (row.headD "") "Flexible Tasks" = true
  · rw [if_pos hA]
  · rw [if_neg hA, if_neg (by simp [hflag])]
    have hB : ¬(1 < row.length ∧ row.headD "" ≠ "" ∧
        strContains (row.headD "") "Time" = false ∧
        strContains (row.headD "") "Schedule" = false) := by
      rintro ⟨-, -, hT, hS⟩
      rcases hdr with h | h
      · exact Bool.noConfusion (h.symm.trans hT)
      · exact Bool.noConfusion (h.symm.trans hS)
    rw [if_neg hB]

theorem c10_header_filter_witness :
    ((⟨[], [], false⟩ : ParseState).parsing_flexible = false ∧
      strContains ((["Morning Schedule", "Workout"] : List String).headD "") "Schedule" = true ∧
      "Workout" ≠ "---") ∧
    (parseRow ⟨[], [], false⟩ ["Morning Schedule", "Workout"]).timed = [] :=
  ⟨⟨rfl, by decide, by decide⟩,
    c10_header_filter ⟨[], [], false⟩ ["Morning Schedule", "Workout"] rfl
      (Or.inr (by decide))⟩

/-- Sanity check of the clock embedding against `strftime("%I:%M %p")`. -/
theorem format12Hour_morning : format12Hour 9 0 = "09:00 AM" := by decide

/-- Sanity check of the clock embedding against `strftime("%I:%M %p")`. -/
theorem format12Hour_afternoon : format12Hour 13 5 = "01:05 PM" := by decide

/-- Sanity check of the `str.upper()` embedding. -/
theorem pyUpper_sample : pyUpper "09:00 am" = "09:00 AM" := by decide

end Planner
